import Mathlib

/-!
Parcel store (`parcel.go`).

A shallow embedding of `ParcelStore` and its six methods. The Go methods are
written against the `database/sql` handle `*sql.DB`; the handle is embedded as
a record of its three entry points (`Exec`, `QueryRow`, `Query`) acting on an
explicit connection state, so that the methods can be studied both against an
arbitrary (possibly failing) database and against the reference semantics of
the six SQL statements on the `parcel` table.

Go `int` is taken to be 64 bits wide. Go's `(T, error)` results are pairs
`T × Option Err`, where `none` is the `nil` error.
-/

namespace ParcelDB

/-! ## Data model -/

/-- Modelled from the spec: the `Parcel` struct is declared outside `parcel.go`;
its five fields are the ones the methods read and scan into. -/
structure Parcel where
  Number : Int
  Client : Int
  Status : String
  Address : String
  CreatedAt : String
deriving DecidableEq, Repr

/-- Modelled from the spec: the status constant `registered`, declared outside
`parcel.go` and used by the tests as `ParcelStatusRegistered`. -/
def ParcelStatusRegistered : String := "registered"

/-- Modelled from the spec: the status constant `sent`, declared outside
`parcel.go` and used by the tests as `ParcelStatusSent`. -/
def ParcelStatusSent : String := "sent"

/-- The Go zero value `Parcel{}`. -/
def Parcel.zero : Parcel := ⟨0, 0, "", "", ""⟩

/-- Go `error` values: the sentinel `sql.ErrNoRows` and any other failure
reported by the database layer. -/
inductive Err where
  | ErrNoRows
  | driver (msg : String)
deriving DecidableEq, Repr

/-! ## The SQL statements of `parcel.go` -/

/-- One conjunct of a `WHERE` clause, with its bound named argument. -/
inductive Cond where
  /-- The conjunct `number = :number`. -/
  | numberEq (number : Int)
  /-- The conjunct `client = :client`. -/
  | clientEq (client : Int)
  /-- The conjunct `status = :status`. -/
  | statusEq (status : String)
deriving DecidableEq, Repr

/-- The `SET` clause of an `UPDATE`, with its bound named argument. -/
inductive Assign where
  /-- The clause `SET status = :status`. -/
  | status (status : String)
  /-- The clause `SET address = :address`. -/
  | address (address : String)
deriving DecidableEq, Repr

/-- Statements passed to `Exec`. -/
inductive Stmt where
  /-- The statement `INSERT INTO parcel (client, status, address, created_at)
  VALUES (:client, :status, :address, :created_at)`. -/
  | insert (client : Int) (status address created_at : String)
  /-- The statement `UPDATE parcel SET ... WHERE ...`. -/
  | update (set : Assign) (whr : List Cond)
  /-- The statement `DELETE FROM parcel WHERE ...`. -/
  | delete (whr : List Cond)
deriving DecidableEq, Repr

/-- Queries passed to `QueryRow` and `Query`:
`SELECT number, client, status, address, created_at FROM parcel WHERE ...`. -/
structure Select where
  whr : List Cond
deriving DecidableEq, Repr

/-! ## The `database/sql` handle -/

/-- The `sql.Result` of an `Exec`; `LastInsertId` returns `(int64, error)`. -/
structure Result where
  LastInsertId : Except Err Int

/-- A row ready to be scanned: `Scan` takes the current contents of the
destination struct and returns its contents afterwards with the error. -/
abbrev Scanner := Parcel → Parcel × Option Err

/-- The `*sql.Row` returned by `QueryRow`; every failure is deferred to `Scan`. -/
structure Row where
  Scan : Scanner

/-- The `*sql.Rows` returned by `Query`: one scanner for every row for which
`Next` returns true, and the error (if any) that ended the iteration, which
`Rows.Err` would report. -/
structure Rows where
  pending : List Scanner
  Err : Option Err

/-- The handle `*sql.DB`, acting on a connection state `σ`. -/
structure DB (σ : Type) where
  Exec : Stmt → σ → Except Err Result × σ
  QueryRow : Select → σ → Row × σ
  Query : Select → σ → Except Err Rows × σ

/-- The conversion `int(id)` of an `int64` to a 64-bit `int`. -/
def toInt (id : Int) : Int := (id + 2 ^ 63) % 2 ^ 64 - 2 ^ 63

/-! ## `ParcelStore` -/

structure ParcelStore (σ : Type) where
  db : DB σ

def NewParcelStore {σ : Type} (db : DB σ) : ParcelStore σ := ⟨db⟩

/-- `func (s ParcelStore) Add(p Parcel) (int, error)`. -/
def ParcelStore.Add {σ : Type} (s : ParcelStore σ) (p : Parcel) (st : σ) :
    (Int × Option Err) × σ :=
  match s.db.Exec (.insert p.Client p.Status p.Address p.CreatedAt) st with
  | (.error err, st1) => ((0, some err), st1)
  | (.ok res, st1) =>
    match res.LastInsertId with
    | .error err => ((0, some err), st1)
    | .ok id => ((toInt id, none), st1)

/-- `func (s ParcelStore) Get(number int) (Parcel, error)`. -/
def ParcelStore.Get {σ : Type} (s : ParcelStore σ) (number : Int) (st : σ) :
    (Parcel × Option Err) × σ :=
  match s.db.QueryRow ⟨[.numberEq number]⟩ st with
  | (row, st1) =>
    match row.Scan Parcel.zero with
    | (p, some err) => ((p, some err), st1)
    | (p, none) => ((p, none), st1)

/-- The loop `for rows.Next() { ... }` of `GetByClient`, started with the
slice `res`: a failed `Scan` returns `nil, err`. -/
def scanAll : List Scanner → List Parcel → List Parcel × Option Err
  | [], res => (res, none)
  | scan :: rest, res =>
    match scan Parcel.zero with
    | (_, some err) => ([], some err)
    | (p, none) => scanAll rest (res ++ [p])

/-- `func (s ParcelStore) GetByClient(client int) ([]Parcel, error)`.
The error held by `rows` after the loop is not consulted. -/
def ParcelStore.GetByClient {σ : Type} (s : ParcelStore σ) (client : Int) (st : σ) :
    (List Parcel × Option Err) × σ :=
  match s.db.Query ⟨[.clientEq client]⟩ st with
  | (.error err, st1) => (([], some err), st1)
  | (.ok rows, st1) => (scanAll rows.pending [], st1)

/-- `func (s ParcelStore) SetStatus(number int, status string) error`. -/
def ParcelStore.SetStatus {σ : Type} (s : ParcelStore σ) (number : Int) (status : String)
    (st : σ) : Option Err × σ :=
  match s.db.Exec (.update (.status status) [.numberEq number]) st with
  | (.error err, st1) => (some err, st1)
  | (.ok _, st1) => (none, st1)

/-- `func (s ParcelStore) SetAddress(number int, address string) error`. -/
def ParcelStore.SetAddress {σ : Type} (s : ParcelStore σ) (number : Int) (address : String)
    (st : σ) : Option Err × σ :=
  match s.db.Exec (.update (.address address) [.numberEq number, .statusEq "registered"]) st with
  | (.error err, st1) => (some err, st1)
  | (.ok _, st1) => (none, st1)

/-- `func (s ParcelStore) Delete(number int) error`. -/
def ParcelStore.Delete {σ : Type} (s : ParcelStore σ) (number : Int) (st : σ) :
    Option Err × σ :=
  match s.db.Exec (.delete [.numberEq number, .statusEq "registered"]) st with
  | (.error err, st1) => (some err, st1)
  | (.ok _, st1) => (none, st1)

/-! ## Reference semantics of the statements on the `parcel` table -/

/-- Modelled from the spec: the table
`parcel(number PK autoincrement, client, status, address, created_at)`, created
outside `parcel.go`. `rows` are the rows in scan order and `seq` is the
largest `number` the table has ever handed out. -/
structure Table where
  rows : List Parcel
  seq : Int
deriving DecidableEq, Repr

/-- The empty table. -/
def Table.empty : Table := ⟨[], 0⟩

/-- The largest signed 64-bit integer, the largest possible row id. -/
def maxInt64 : Int := 2 ^ 63 - 1

/-- Whether a row satisfies one conjunct of a `WHERE` clause. -/
def Cond.holds : Cond → Parcel → Bool
  | .numberEq n, p => p.Number == n
  | .clientEq c, p => p.Client == c
  | .statusEq s, p => p.Status == s

/-- Whether a row satisfies a `WHERE` clause, the conjunction of its conjuncts. -/
def sat (whr : List Cond) (p : Parcel) : Bool := whr.all (fun c => c.holds p)

/-- The effect of a `SET` clause on one row. -/
def Assign.apply : Assign → Parcel → Parcel
  | .status s, p => ⟨p.Number, p.Client, s, p.Address, p.CreatedAt⟩
  | .address a, p => ⟨p.Number, p.Client, p.Status, a, p.CreatedAt⟩

/-- The largest `number` among the rows (0 for no rows). -/
def maxNumber : List Parcel → Int
  | [] => 0
  | p :: ps => max p.Number (maxNumber ps)

/-- Modelled from the spec: "assigned by the store on insert (auto-increment
semantics)". The new `number` is one more than the largest ever used; none is
left once the largest 64-bit value has been used. -/
def Table.nextNumber (t : Table) : Option Int :=
  if maxInt64 ≤ max t.seq (maxNumber t.rows) then none
  else some (max t.seq (maxNumber t.rows) + 1)

/-- The rows a `SELECT ... WHERE` returns, in scan order. -/
def Table.select (q : Select) (t : Table) : List Parcel := t.rows.filter (sat q.whr)

/-- A scanner for a stored row: all five columns are copied and no error arises. -/
def scanOf (r : Parcel) : Scanner := fun _ => (r, none)

/-- Reference `Exec`. Results of `UPDATE` and `DELETE` carry the last inserted
row id, which the callers discard. -/
def Table.Exec : Stmt → Table → Except Err Result × Table
  | .insert client status address created_at, t =>
    match t.nextNumber with
    | none => (.error (.driver "database or disk is full"), t)
    | some n => (.ok ⟨.ok n⟩, ⟨t.rows ++ [⟨n, client, status, address, created_at⟩], n⟩)
  | .update set whr, t =>
    (.ok ⟨.ok t.seq⟩, ⟨t.rows.map (fun p => if sat whr p then set.apply p else p), t.seq⟩)
  | .delete whr, t =>
    (.ok ⟨.ok t.seq⟩, ⟨t.rows.filter (fun p => !sat whr p), t.seq⟩)

/-- Reference `QueryRow`: `Scan` reads the first selected row, and reports
`sql.ErrNoRows`, leaving the destination untouched, when there is none. -/
def Table.QueryRow (q : Select) (t : Table) : Row × Table :=
  match (t.select q).head? with
  | none => (⟨fun dest => (dest, some .ErrNoRows)⟩, t)
  | some r => (⟨scanOf r⟩, t)

/-- Reference `Query`: every selected row, each scanned without error. -/
def Table.Query (q : Select) (t : Table) : Except Err Rows × Table :=
  (.ok ⟨(t.select q).map scanOf, none⟩, t)

/-- The reference database handle. -/
def Table.db : DB Table := ⟨Table.Exec, Table.QueryRow, Table.Query⟩

/-- The store over the reference database. -/
def store : ParcelStore Table := NewParcelStore Table.db

/-- A database on which every statement fails with `e` and changes nothing. -/
def brokenDB (e : Err) : DB Table :=
  ⟨fun _ t => (.error e, t), fun _ t => (⟨fun dest => (dest, some e)⟩, t),
    fun _ t => (.error e, t)⟩

/-- A database that runs every statement as the reference one does, but on
which `LastInsertId` fails with `e` and, in a `Query`, every row after the
first fails to scan with `e`. -/
def flakyDB (e : Err) : DB Table :=
  ⟨fun stmt t =>
      match Table.Exec stmt t with
      | (.ok _, t1) => (.ok ⟨.error e⟩, t1)
      | (.error err, t1) => (.error err, t1),
    Table.QueryRow,
    fun q t =>
      match t.select q with
      | [] => (.ok ⟨[], none⟩, t)
      | r :: rest => (.ok ⟨scanOf r :: rest.map (fun _ dest => (dest, some e)), none⟩, t)⟩

/-- A database that runs every statement as the reference one does, except
that a `Query` delivers only the first selected row and then stops stepping
with the error `e`, which `rows.Err()` holds. -/
def interruptedDB (e : Err) : DB Table :=
  ⟨Table.Exec, Table.QueryRow,
    fun q t => (.ok ⟨((t.select q).take 1).map scanOf, some e⟩, t)⟩

/-- Primary key: no two rows share a `number`. -/
def Table.WF (t : Table) : Prop := (t.rows.map Parcel.Number).Nodup

instance (t : Table) : Decidable t.WF := by unfold Table.WF; infer_instance

/-- A small table used for concrete evaluations: two registered parcels and a
sent one. -/
def sample : Table :=
  ⟨[⟨1, 7, "registered", "a", "t1"⟩, ⟨2, 8, "sent", "b", "t2"⟩, ⟨4, 7, "registered", "c", "t3"⟩], 5⟩

/-! ## Lemmas on the reference semantics -/

theorem toInt_of_range (x : Int) (h1 : -2 ^ 63 ≤ x) (h2 : x < 2 ^ 63) : toInt x = x := by
  unfold toInt
  omega

theorem sat_number (n : Int) (p : Parcel) : sat [Cond.numberEq n] p = (p.Number == n) := by
  simp [sat, Cond.holds]

theorem sat_client (c : Int) (p : Parcel) : sat [Cond.clientEq c] p = (p.Client == c) := by
  simp [sat, Cond.holds]

theorem sat_guard (n : Int) (p : Parcel) :
    sat [Cond.numberEq n, Cond.statusEq "registered"] p
      = (p.Number == n && p.Status == "registered") := by
  simp [sat, Cond.holds]

theorem head_filter_eq_find (q : Parcel → Bool) (l : List Parcel) :
    (l.filter q).head? = l.find? q := by
  induction l with
  | nil => rfl
  | cons a l ih =>
    by_cases h : q a = true
    · simp [List.filter_cons, List.find?_cons, h]
    · simp [List.filter_cons, List.find?_cons, h, ih]

/-- The first row with a given number, the row `Get` scans. -/
theorem Get_eq (n : Int) (t : Table) :
    store.Get n t =
      (match t.rows.find? (fun p => p.Number == n) with
        | none => (Parcel.zero, some Err.ErrNoRows)
        | some r => (r, none), t) := by
  have hsat : sat [Cond.numberEq n] = fun p => p.Number == n := by
    funext p; exact sat_number n p
  cases h : t.rows.find? (fun p => p.Number == n) with
  | none =>
    simp [ParcelStore.Get, store, NewParcelStore, Table.db, Table.QueryRow, Table.select,
      head_filter_eq_find, hsat, h]
  | some r =>
    simp [ParcelStore.Get, store, NewParcelStore, Table.db, Table.QueryRow, Table.select,
      head_filter_eq_find, hsat, h, scanOf]

theorem SetStatus_eq (n : Int) (s : String) (t : Table) :
    store.SetStatus n s t =
      (none, ⟨t.rows.map (fun p => if p.Number == n then (Assign.status s).apply p else p),
        t.seq⟩) := by
  simp [ParcelStore.SetStatus, store, NewParcelStore, Table.db, Table.Exec, sat_number]

theorem SetAddress_eq (n : Int) (a : String) (t : Table) :
    store.SetAddress n a t =
      (none, ⟨t.rows.map (fun p =>
        if (p.Number == n && p.Status == "registered") then (Assign.address a).apply p else p),
        t.seq⟩) := by
  simp only [ParcelStore.SetAddress, store, NewParcelStore, Table.db, Table.Exec, sat_guard]

theorem Delete_eq (n : Int) (t : Table) :
    store.Delete n t =
      (none, ⟨t.rows.filter (fun p => !(p.Number == n && p.Status == "registered")),
        t.seq⟩) := by
  simp only [ParcelStore.Delete, store, NewParcelStore, Table.db, Table.Exec, sat_guard]

theorem le_maxNumber (l : List Parcel) (p : Parcel) (h : p ∈ l) : p.Number ≤ maxNumber l := by
  induction l with
  | nil => cases h
  | cons a l ih =>
    simp only [maxNumber]
    rcases List.mem_cons.1 h with rfl | h
    · exact le_max_left _ _
    · exact le_trans (ih h) (le_max_right _ _)

theorem maxNumber_nonneg (l : List Parcel) : 0 ≤ maxNumber l := by
  induction l with
  | nil => simp [maxNumber]
  | cons a l ih => simp only [maxNumber]; exact le_trans ih (le_max_right _ _)

/-- What a successful `Add` does to the table. -/
theorem Add_ok (P : Parcel) (t t1 : Table) (n : Int) (h : store.Add P t = ((n, none), t1)) :
    n = max t.seq (maxNumber t.rows) + 1 ∧
    t1 = ⟨t.rows ++ [⟨n, P.Client, P.Status, P.Address, P.CreatedAt⟩], n⟩ := by
  simp only [ParcelStore.Add, store, NewParcelStore, Table.db, Table.Exec, Table.nextNumber] at h
  have h0 := maxNumber_nonneg t.rows
  by_cases hfull : maxInt64 ≤ max t.seq (maxNumber t.rows)
  · simp [hfull] at h
  · simp only [hfull, if_false] at h
    have hle : 0 ≤ max t.seq (maxNumber t.rows) := le_trans h0 (le_max_right _ _)
    have hr : toInt (max t.seq (maxNumber t.rows) + 1) = max t.seq (maxNumber t.rows) + 1 := by
      apply toInt_of_range
      · omega
      · simp only [maxInt64] at hfull; omega
    rw [hr] at h
    simp only [Prod.mk.injEq, and_true] at h
    obtain ⟨hn, ht⟩ := h
    subst hn
    exact ⟨rfl, ht.symm⟩

theorem find_none_of_forall_ne (n : Int) (l : List Parcel) (h : ∀ p ∈ l, p.Number ≠ n) :
    l.find? (fun p => p.Number == n) = none := by
  rw [List.find?_eq_none]
  intro p hp
  simpa using h p hp

/-- Under the primary key, the first row with a stored row's number is that row. -/
theorem find_of_mem (l : List Parcel) (hnd : (l.map Parcel.Number).Nodup) (p : Parcel)
    (hp : p ∈ l) : l.find? (fun q => q.Number == p.Number) = some p := by
  induction l with
  | nil => cases hp
  | cons a l ih =>
    rw [List.map_cons, List.nodup_cons] at hnd
    rcases List.mem_cons.1 hp with rfl | hp
    · simp [List.find?_cons]
    · have hne : a.Number ≠ p.Number := by
        intro heq
        exact hnd.1 (heq ▸ List.mem_map_of_mem Parcel.Number hp)
      simp [List.find?_cons, hne, ih hnd.2 hp]

theorem eq_of_number_eq (l : List Parcel) (hnd : (l.map Parcel.Number).Nodup) (p q : Parcel)
    (hp : p ∈ l) (hq : q ∈ l) (h : p.Number = q.Number) : p = q := by
  have h1 := find_of_mem l hnd p hp
  have h2 := find_of_mem l hnd q hq
  rw [h, h2] at h1
  exact (Option.some.inj h1).symm

theorem find_map_of_number (f : Parcel → Parcel) (hf : ∀ p, (f p).Number = p.Number) (n : Int)
    (l : List Parcel) :
    (l.map f).find? (fun p => p.Number == n) = (l.find? (fun p => p.Number == n)).map f := by
  rw [List.find?_map]
  have : ((fun p : Parcel => p.Number == n) ∘ f) = fun p => p.Number == n := by
    funext p
    simp [hf p]
  rw [this]

theorem status_apply_number (s : String) (n : Int) (p : Parcel) :
    (if p.Number == n then (Assign.status s).apply p else p).Number = p.Number := by
  split <;> rfl

theorem address_apply_number (a : String) (n : Int) (p : Parcel) :
    (if (p.Number == n && p.Status == "registered") then (Assign.address a).apply p
      else p).Number = p.Number := by
  split <;> rfl

theorem SetStatus_noop (n : Int) (s : String) (t : Table) (h : ∀ q ∈ t.rows, q.Number ≠ n) :
    store.SetStatus n s t = (none, t) := by
  rw [SetStatus_eq]
  have hmap : t.rows.map (fun p => if p.Number == n then (Assign.status s).apply p else p)
      = t.rows := by
    conv_rhs => rw [← List.map_id t.rows]
    apply List.map_congr_left
    intro q hq
    simp [h q hq]
  rw [hmap]

theorem SetAddress_noop (n : Int) (a : String) (t : Table)
    (h : ∀ q ∈ t.rows, ¬ (q.Number = n ∧ q.Status = "registered")) :
    store.SetAddress n a t = (none, t) := by
  rw [SetAddress_eq]
  have hmap : t.rows.map (fun p =>
      if (p.Number == n && p.Status == "registered") then (Assign.address a).apply p else p)
      = t.rows := by
    conv_rhs => rw [← List.map_id t.rows]
    apply List.map_congr_left
    intro q hq
    have := h q hq
    simp only [Bool.and_eq_true, beq_iff_eq, id_eq, ite_eq_right_iff]
    intro hc
    exact absurd hc this
  rw [hmap]

theorem Delete_noop (n : Int) (t : Table)
    (h : ∀ q ∈ t.rows, ¬ (q.Number = n ∧ q.Status = "registered")) :
    store.Delete n t = (none, t) := by
  rw [Delete_eq]
  have hfil : t.rows.filter (fun p => !(p.Number == n && p.Status == "registered"))
      = t.rows := by
    rw [List.filter_eq_self]
    intro q hq
    have := h q hq
    simp only [Bool.not_eq_true', Bool.and_eq_false_imp, beq_iff_eq, beq_eq_false_iff_ne]
    intro h1 h2
    exact this ⟨h1, h2⟩
  rw [hfil]

/-- Under the primary key, a stored row whose status is not `registered`
keeps every row out of the guard of `SetAddress` and `Delete`. -/
theorem guard_fails (t : Table) (hwf : t.WF) (p : Parcel) (hp : p ∈ t.rows)
    (hs : p.Status ≠ "registered") :
    ∀ q ∈ t.rows, ¬ (q.Number = p.Number ∧ q.Status = "registered") := by
  intro q hq hc
  have := eq_of_number_eq t.rows hwf q p hq hp hc.1
  subst this
  exact hs hc.2

theorem Get_of_mem (t : Table) (hwf : t.WF) (p : Parcel) (hp : p ∈ t.rows) :
    store.Get p.Number t = ((p, none), t) := by
  rw [Get_eq, find_of_mem t.rows hwf p hp]

/-- After a successful `Add`, the first row with the returned number is the new row. -/
theorem Get_after_Add (t t1 : Table) (P : Parcel) (n : Int)
    (h : store.Add P t = ((n, none), t1)) :
    store.Get n t1 = ((⟨n, P.Client, P.Status, P.Address, P.CreatedAt⟩, none), t1) := by
  obtain ⟨hn, ht⟩ := Add_ok P t t1 n h
  have hold : t.rows.find? (fun p => p.Number == n) = none := by
    apply find_none_of_forall_ne
    intro p hp
    have h1 := le_maxNumber t.rows p hp
    have h2 : maxNumber t.rows ≤ max t.seq (maxNumber t.rows) := le_max_right _ _
    omega
  rw [Get_eq, ht]
  simp [List.find?_append, hold, List.find?_cons]

theorem scanAll_scanOf (l acc : List Parcel) : scanAll (l.map scanOf) acc = (acc ++ l, none) := by
  induction l generalizing acc with
  | nil => simp [scanAll]
  | cons a l ih => simp [scanAll, scanOf, ih]

theorem GetByClient_eq (c : Int) (t : Table) :
    store.GetByClient c t = ((t.rows.filter (fun p => p.Client == c), none), t) := by
  have hsat : sat [Cond.clientEq c] = fun p => p.Client == c := by
    funext p; exact sat_client c p
  simp [ParcelStore.GetByClient, store, NewParcelStore, Table.db, Table.Query, Table.select,
    scanAll_scanOf, hsat]

/-- A failing scan after successful ones makes the loop return `nil` and the error. -/
theorem scanAll_fails (pre post : List Scanner) (scan : Scanner) (p : Parcel) (e : Err)
    (hpre : ∀ sc ∈ pre, (sc Parcel.zero).2 = none) (hscan : scan Parcel.zero = (p, some e))
    (acc : List Parcel) : scanAll (pre ++ scan :: post) acc = ([], some e) := by
  induction pre generalizing acc with
  | nil => simp [scanAll, hscan]
  | cons a pre ih =>
    have ha : (a Parcel.zero).2 = none := hpre a (List.mem_cons_self _ _)
    have hrest : ∀ sc ∈ pre, (sc Parcel.zero).2 = none :=
      fun sc hsc => hpre sc (List.mem_cons_of_mem _ hsc)
    rw [List.cons_append]
    unfold scanAll
    cases hr : a Parcel.zero with
    | mk r err =>
      rw [hr] at ha
      simp only at ha
      subst ha
      exact ih hrest _

theorem Get_ok_mem (m : Int) (t : Table) (p : Parcel) (h : (store.Get m t).1 = (p, none)) :
    p ∈ t.rows ∧ p.Number = m ∧ t.rows.find? (fun q => q.Number == m) = some p := by
  rw [Get_eq] at h
  cases hf : t.rows.find? (fun q => q.Number == m) with
  | none => rw [hf] at h; simp at h
  | some r =>
    rw [hf] at h
    simp only [Prod.mk.injEq, and_true] at h
    subst h
    have := List.find?_some hf
    exact ⟨List.mem_of_find?_eq_some hf, by simpa using this, rfl⟩

theorem find_filter_other (n m : Int) (hne : m ≠ n) (l : List Parcel) :
    (l.filter (fun p => !(p.Number == n && p.Status == "registered"))).find?
        (fun p => p.Number == m)
      = l.find? (fun p => p.Number == m) := by
  rw [List.find?_filter]
  congr 1
  funext a
  by_cases ha : a.Number = m
  · have : ¬ a.Number = n := fun h => hne (ha ▸ h)
    simp [ha, this, hne]
  · simp [ha]

/-! ## The primary key is an invariant -/

theorem WF_empty : Table.empty.WF := by
  simp [Table.WF, Table.empty]

theorem WF_Add (t t1 : Table) (hwf : t.WF) (P : Parcel) (n : Int)
    (h : store.Add P t = ((n, none), t1)) : t1.WF := by
  obtain ⟨hn, ht⟩ := Add_ok P t t1 n h
  subst ht
  simp only [Table.WF, List.map_append, List.map_cons, List.map_nil]
  rw [List.nodup_append]
  refine ⟨hwf, List.nodup_singleton _, ?_⟩
  intro a ha hb
  rw [List.mem_singleton] at hb
  subst hb
  obtain ⟨p, hp, hpa⟩ := List.mem_map.1 ha
  have h1 := le_maxNumber t.rows p hp
  have h2 : maxNumber t.rows ≤ max t.seq (maxNumber t.rows) := le_max_right _ _
  omega

theorem WF_SetStatus (t : Table) (hwf : t.WF) (n : Int) (s : String) :
    (store.SetStatus n s t).2.WF := by
  rw [SetStatus_eq]
  simp only [Table.WF, List.map_map]
  have : (Parcel.Number ∘ fun p => if p.Number == n then (Assign.status s).apply p else p)
      = Parcel.Number := by
    funext p
    exact status_apply_number s n p
  rw [this]
  exact hwf

theorem WF_SetAddress (t : Table) (hwf : t.WF) (n : Int) (a : String) :
    (store.SetAddress n a t).2.WF := by
  rw [SetAddress_eq]
  simp only [Table.WF, List.map_map]
  have : (Parcel.Number ∘ fun p =>
      if (p.Number == n && p.Status == "registered") then (Assign.address a).apply p else p)
      = Parcel.Number := by
    funext p
    exact address_apply_number a n p
  rw [this]
  exact hwf

theorem WF_Delete (t : Table) (hwf : t.WF) (n : Int) : (store.Delete n t).2.WF := by
  rw [Delete_eq]
  exact List.Nodup.sublist (List.Sublist.map _ (List.filter_sublist _)) hwf

/-- An error that ends the iteration and that only `rows.Err()` would report
does not reach the caller of `GetByClient`, whose loop just stops. -/
theorem GetByClient_iteration_error {σ : Type} (s : ParcelStore σ) (st st1 : σ) (c : Int)
    (pending : List Scanner) (e : Err)
    (h : s.db.Query ⟨[.clientEq c]⟩ st = (.ok ⟨pending, some e⟩, st1)) :
    s.GetByClient c st = (scanAll pending [], st1) := by
  simp only [ParcelStore.GetByClient, h]

/-! ## The claims -/

/-- C1. Round trip of Add and Get: whenever `Add P` succeeds with number `n`,
`Get n` on the resulting store succeeds and returns `P` with its number set to
`n` (same client, status, address and createdAt). -/
theorem add_get_roundtrip (t t1 : Table) (P : Parcel) (n : Int)
    (h : store.Add P t = ((n, none), t1)) :
    store.Get n t1 = ((⟨n, P.Client, P.Status, P.Address, P.CreatedAt⟩, none), t1) :=
  Get_after_Add t t1 P n h

theorem add_get_roundtrip_witness :
    store.Add ⟨0, 9, "registered", "d", "t4"⟩ sample
      = ((6, none), ⟨sample.rows ++ [⟨6, 9, "registered", "d", "t4"⟩], 6⟩) ∧
    store.Get 6 ⟨sample.rows ++ [⟨6, 9, "registered", "d", "t4"⟩], 6⟩
      = ((⟨6, 9, "registered", "d", "t4"⟩, none),
          ⟨sample.rows ++ [⟨6, 9, "registered", "d", "t4"⟩], 6⟩) :=
  ⟨by decide, add_get_roundtrip sample _ ⟨0, 9, "registered", "d", "t4"⟩ 6 (by decide)⟩

/-- C2. Guard permission for SetAddress: when the store holds a parcel `p`
with status `registered`, `SetAddress p.Number X` returns no error and the
following `Get p.Number` returns `p` with its address replaced by `X` (number,
client, status and createdAt as `Get` returned them before the call). -/
theorem setAddress_registered (t : Table) (hwf : t.WF) (p : Parcel) (hp : p ∈ t.rows)
    (hs : p.Status = "registered") (X : String) :
    store.Get p.Number t = ((p, none), t) ∧
    (store.SetAddress p.Number X t).1 = none ∧
    store.Get p.Number (store.SetAddress p.Number X t).2
      = ((⟨p.Number, p.Client, p.Status, X, p.CreatedAt⟩, none),
          (store.SetAddress p.Number X t).2) := by
  refine ⟨Get_of_mem t hwf p hp, by rw [SetAddress_eq], ?_⟩
  rw [Get_eq, SetAddress_eq]
  simp only []
  rw [find_map_of_number _ (address_apply_number X p.Number), find_of_mem t.rows hwf p hp]
  simp [hs, Assign.apply]

theorem setAddress_registered_witness :
    store.Get 1 sample = ((⟨1, 7, "registered", "a", "t1"⟩, none), sample) ∧
    (store.SetAddress 1 "x" sample).1 = none ∧
    store.Get 1 (store.SetAddress 1 "x" sample).2
      = ((⟨1, 7, "registered", "x", "t1"⟩, none), (store.SetAddress 1 "x" sample).2) :=
  setAddress_registered sample (by decide) ⟨1, 7, "registered", "a", "t1"⟩ (by decide) rfl "x"

/-- C3. Guard enforcement: when the store holds a parcel `p` whose status is
not `registered`, `SetAddress p.Number X` and `Delete p.Number` both return no
error, and `Get p.Number` afterwards returns `p`, the same parcel as before the
call (address unchanged, row still present). -/
theorem guard_enforced (t : Table) (hwf : t.WF) (p : Parcel) (hp : p ∈ t.rows)
    (hs : p.Status ≠ "registered") (X : String) :
    store.Get p.Number t = ((p, none), t) ∧
    (store.SetAddress p.Number X t).1 = none ∧
    (store.Get p.Number (store.SetAddress p.Number X t).2).1 = (p, none) ∧
    (store.Delete p.Number t).1 = none ∧
    (store.Get p.Number (store.Delete p.Number t).2).1 = (p, none) := by
  have hg := guard_fails t hwf p hp hs
  rw [SetAddress_noop p.Number X t hg, Delete_noop p.Number t hg, Get_of_mem t hwf p hp]
  exact ⟨rfl, rfl, rfl, rfl, rfl⟩

theorem guard_enforced_witness :
    store.Get 2 sample = ((⟨2, 8, "sent", "b", "t2"⟩, none), sample) ∧
    (store.SetAddress 2 "x" sample).1 = none ∧
    (store.Get 2 (store.SetAddress 2 "x" sample).2).1 = (⟨2, 8, "sent", "b", "t2"⟩, none) ∧
    (store.Delete 2 sample).1 = none ∧
    (store.Get 2 (store.Delete 2 sample).2).1 = (⟨2, 8, "sent", "b", "t2"⟩, none) :=
  guard_enforced sample (by decide) ⟨2, 8, "sent", "b", "t2"⟩ (by decide) (by decide) "x"

/-- C4. Delete removes a registered parcel: when the store holds a parcel `p`
with status `registered`, `Delete p.Number` returns no error and the following
`Get p.Number` fails with `sql.ErrNoRows`. -/
theorem delete_registered (t : Table) (hwf : t.WF) (p : Parcel) (hp : p ∈ t.rows)
    (hs : p.Status = "registered") :
    (store.Delete p.Number t).1 = none ∧
    (store.Get p.Number (store.Delete p.Number t).2).1.2 = some Err.ErrNoRows := by
  refine ⟨by rw [Delete_eq], ?_⟩
  rw [Get_eq, Delete_eq]
  simp only []
  rw [find_none_of_forall_ne]
  intro q hq
  rw [List.mem_filter] at hq
  intro hc
  have := eq_of_number_eq t.rows hwf q p hq.1 hp hc
  subst this
  simp [hs] at hq

theorem delete_registered_witness :
    (store.Delete 4 sample).1 = none ∧
    (store.Get 4 (store.Delete 4 sample).2).1.2 = some Err.ErrNoRows :=
  delete_registered sample (by decide) ⟨4, 7, "registered", "c", "t3"⟩ (by decide) rfl

/-- C5. Status update: when the store holds a parcel `p` (whatever its
status), `SetStatus p.Number s` returns no error and the following
`Get p.Number` returns `p` with its status replaced by `s` (number, client,
address and createdAt as `Get` returned them before the call). -/
theorem setStatus_get (t : Table) (hwf : t.WF) (p : Parcel) (hp : p ∈ t.rows) (s : String) :
    store.Get p.Number t = ((p, none), t) ∧
    (store.SetStatus p.Number s t).1 = none ∧
    store.Get p.Number (store.SetStatus p.Number s t).2
      = ((⟨p.Number, p.Client, s, p.Address, p.CreatedAt⟩, none),
          (store.SetStatus p.Number s t).2) := by
  refine ⟨Get_of_mem t hwf p hp, by rw [SetStatus_eq], ?_⟩
  rw [Get_eq, SetStatus_eq]
  simp only []
  rw [find_map_of_number _ (status_apply_number s p.Number), find_of_mem t.rows hwf p hp]
  simp [Assign.apply]

theorem setStatus_get_witness :
    store.Get 2 sample = ((⟨2, 8, "sent", "b", "t2"⟩, none), sample) ∧
    (store.SetStatus 2 "delivered" sample).1 = none ∧
    store.Get 2 (store.SetStatus 2 "delivered" sample).2
      = ((⟨2, 8, "delivered", "b", "t2"⟩, none), (store.SetStatus 2 "delivered" sample).2) :=
  setStatus_get sample (by decide) ⟨2, 8, "sent", "b", "t2"⟩ (by decide) "delivered"

/-- C7. Missing row: when no stored parcel has number `n`, `Get n` fails with
`sql.ErrNoRows`, while `SetStatus n s`, `SetAddress n a` and `Delete n` each
return no error and leave the table as it was. -/
theorem missing_row (t : Table) (n : Int) (h : ∀ q ∈ t.rows, q.Number ≠ n) (s a : String) :
    store.Get n t = ((Parcel.zero, some Err.ErrNoRows), t) ∧
    store.SetStatus n s t = (none, t) ∧
    store.SetAddress n a t = (none, t) ∧
    store.Delete n t = (none, t) := by
  refine ⟨?_, SetStatus_noop n s t h, SetAddress_noop n a t ?_, Delete_noop n t ?_⟩
  · rw [Get_eq, find_none_of_forall_ne n t.rows h]
  · exact fun q hq hc => h q hq hc.1
  · exact fun q hq hc => h q hq hc.1

theorem missing_row_witness :
    store.Get 3 sample = ((Parcel.zero, some Err.ErrNoRows), sample) ∧
    store.SetStatus 3 "sent" sample = (none, sample) ∧
    store.SetAddress 3 "x" sample = (none, sample) ∧
    store.Delete 3 sample = (none, sample) :=
  missing_row sample 3 (by decide) "sent" "x"

/-- C6. Lookup by client: `GetByClient C` returns no error and a sequence in
which every stored parcel with client `C` occurs exactly once, as stored, and
nothing else occurs; when no stored parcel has client `C` the sequence is
empty. -/
theorem getByClient_exact (t : Table) (hwf : t.WF) (C : Int) :
    (store.GetByClient C t).1.2 = none ∧
    (∀ p : Parcel, (store.GetByClient C t).1.1.count p
        = if p ∈ t.rows ∧ p.Client = C then 1 else 0) ∧
    ((∀ p ∈ t.rows, p.Client ≠ C) → (store.GetByClient C t).1.1 = []) := by
  rw [GetByClient_eq]
  refine ⟨rfl, ?_, ?_⟩
  · intro p
    have hnd : (t.rows.filter (fun q => q.Client == C)).Nodup :=
      (List.Nodup.of_map Parcel.Number hwf).filter _
    by_cases hp : p ∈ t.rows ∧ p.Client = C
    · rw [if_pos hp]
      apply List.count_eq_one_of_mem hnd
      rw [List.mem_filter]
      exact ⟨hp.1, by simp [hp.2]⟩
    · rw [if_neg hp, List.count_eq_zero, List.mem_filter]
      intro hc
      exact hp ⟨hc.1, by simpa using hc.2⟩
  · intro h
    simp only [List.filter_eq_nil_iff, beq_iff_eq]
    exact h

theorem getByClient_exact_witness :
    sample.WF ∧
    (store.GetByClient 7 sample).1.2 = none ∧
    (∀ p : Parcel, (store.GetByClient 7 sample).1.1.count p
        = if p ∈ sample.rows ∧ p.Client = 7 then 1 else 0) ∧
    (store.GetByClient 99 sample).1.1 = [] :=
  ⟨by decide, (getByClient_exact sample (by decide) 7).1,
    (getByClient_exact sample (by decide) 7).2.1,
    (getByClient_exact sample (by decide) 99).2.2 (by decide)⟩

/-- C8, as stated, fails: `Add` stores the status it is handed, so a parcel
added with status `sent` is read back with status `sent`. -/
theorem initial_status_counterexample :
    ¬ ∀ (t t1 : Table) (P : Parcel) (n : Int), store.Add P t = ((n, none), t1) →
        (store.Get n t1).1.1.Status = ParcelStatusRegistered := by
  intro h
  have h1 := h Table.empty ⟨[⟨1, 5, "sent", "a", "c"⟩], 1⟩ ⟨0, 5, "sent", "a", "c"⟩ 1
    (by decide)
  revert h1
  decide

/-- C8, amended. Initial status: whenever a parcel `P` handed over with status
`registered` is added successfully with number `n`, `Get n` immediately
afterwards succeeds and returns a parcel with status `registered`. -/
theorem initial_status (t t1 : Table) (P : Parcel) (n : Int)
    (hs : P.Status = ParcelStatusRegistered) (h : store.Add P t = ((n, none), t1)) :
    (store.Get n t1).1.2 = none ∧
    (store.Get n t1).1.1.Status = ParcelStatusRegistered := by
  rw [Get_after_Add t t1 P n h]
  exact ⟨rfl, hs⟩

theorem initial_status_witness :
    store.Add ⟨0, 1000, "registered", "test", "c"⟩ Table.empty
      = ((1, none), ⟨[⟨1, 1000, "registered", "test", "c"⟩], 1⟩) ∧
    (store.Get 1 ⟨[⟨1, 1000, "registered", "test", "c"⟩], 1⟩).1.2 = none ∧
    (store.Get 1 ⟨[⟨1, 1000, "registered", "test", "c"⟩], 1⟩).1.1.Status
      = ParcelStatusRegistered :=
  ⟨by decide, initial_status Table.empty ⟨[⟨1, 1000, "registered", "test", "c"⟩], 1⟩
    ⟨0, 1000, "registered", "test", "c"⟩ 1 rfl (by decide)⟩

/-- Error propagation at the points `parcel.go` checks, for any database
handle: an error `e` returned by `Exec`, `LastInsertId`, `Query` or a `Scan` is
returned as it is, after that single call (the state is the one the failing
call left); `Add` then returns 0 and `GetByClient` returns no parcels, even
after rows that scanned successfully. -/
theorem error_propagation {σ : Type} (s : ParcelStore σ) (st st1 : σ) (e : Err) :
    (∀ p : Parcel,
      s.db.Exec (.insert p.Client p.Status p.Address p.CreatedAt) st = (.error e, st1) →
      s.Add p st = ((0, some e), st1)) ∧
    (∀ (p : Parcel) (res : Result),
      s.db.Exec (.insert p.Client p.Status p.Address p.CreatedAt) st = (.ok res, st1) →
      res.LastInsertId = .error e →
      s.Add p st = ((0, some e), st1)) ∧
    (∀ (n : Int) (row : Row) (p : Parcel),
      s.db.QueryRow ⟨[.numberEq n]⟩ st = (row, st1) → row.Scan Parcel.zero = (p, some e) →
      s.Get n st = ((p, some e), st1)) ∧
    (∀ c : Int, s.db.Query ⟨[.clientEq c]⟩ st = (.error e, st1) →
      s.GetByClient c st = (([], some e), st1)) ∧
    (∀ (c : Int) (rows : Rows) (pre post : List Scanner) (scan : Scanner) (p : Parcel),
      s.db.Query ⟨[.clientEq c]⟩ st = (.ok rows, st1) →
      rows.pending = pre ++ scan :: post →
      (∀ sc ∈ pre, (sc Parcel.zero).2 = none) → scan Parcel.zero = (p, some e) →
      s.GetByClient c st = (([], some e), st1)) ∧
    (∀ (n : Int) (status : String),
      s.db.Exec (.update (.status status) [.numberEq n]) st = (.error e, st1) →
      s.SetStatus n status st = (some e, st1)) ∧
    (∀ (n : Int) (address : String),
      s.db.Exec (.update (.address address) [.numberEq n, .statusEq "registered"]) st
        = (.error e, st1) →
      s.SetAddress n address st = (some e, st1)) ∧
    (∀ n : Int,
      s.db.Exec (.delete [.numberEq n, .statusEq "registered"]) st = (.error e, st1) →
      s.Delete n st = (some e, st1)) := by
  refine ⟨?_, ?_, ?_, ?_, ?_, ?_, ?_, ?_⟩
  · intro p h
    simp only [ParcelStore.Add, h]
  · intro p res h hid
    simp only [ParcelStore.Add, h, hid]
  · intro n row p h hscan
    simp only [ParcelStore.Get, h, hscan]
  · intro c h
    simp only [ParcelStore.GetByClient, h]
  · intro c rows pre post scan p h hpend hpre hscan
    simp only [ParcelStore.GetByClient, h, hpend]
    rw [scanAll_fails pre post scan p e hpre hscan]
  · intro n status h
    simp only [ParcelStore.SetStatus, h]
  · intro n address h
    simp only [ParcelStore.SetAddress, h]
  · intro n h
    simp only [ParcelStore.Delete, h]

theorem error_propagation_witness :
    (NewParcelStore (brokenDB (.driver "down"))).Add ⟨0, 9, "registered", "d", "t4"⟩ sample
      = ((0, some (.driver "down")), sample) ∧
    (NewParcelStore (flakyDB (.driver "down"))).Add ⟨0, 9, "registered", "d", "t4"⟩ sample
      = ((0, some (.driver "down")),
          ⟨sample.rows ++ [⟨6, 9, "registered", "d", "t4"⟩], 6⟩) ∧
    (NewParcelStore (brokenDB (.driver "down"))).Get 1 sample
      = ((Parcel.zero, some (.driver "down")), sample) ∧
    (NewParcelStore (brokenDB (.driver "down"))).GetByClient 7 sample
      = (([], some (.driver "down")), sample) ∧
    (NewParcelStore (flakyDB (.driver "down"))).GetByClient 7 sample
      = (([], some (.driver "down")), sample) ∧
    (NewParcelStore (brokenDB (.driver "down"))).SetStatus 1 "sent" sample
      = (some (.driver "down"), sample) ∧
    (NewParcelStore (brokenDB (.driver "down"))).SetAddress 1 "x" sample
      = (some (.driver "down"), sample) ∧
    (NewParcelStore (brokenDB (.driver "down"))).Delete 1 sample
      = (some (.driver "down"), sample) :=
  ⟨(error_propagation (NewParcelStore (brokenDB (.driver "down"))) sample sample
      (.driver "down")).1 _ rfl,
    (error_propagation (NewParcelStore (flakyDB (.driver "down"))) sample _
      (.driver "down")).2.1 _ ⟨.error (.driver "down")⟩ rfl rfl,
    (error_propagation (NewParcelStore (brokenDB (.driver "down"))) sample sample
      (.driver "down")).2.2.1 1 ⟨fun dest => (dest, some (.driver "down"))⟩ Parcel.zero rfl rfl,
    (error_propagation (NewParcelStore (brokenDB (.driver "down"))) sample sample
      (.driver "down")).2.2.2.1 7 rfl,
    (error_propagation (NewParcelStore (flakyDB (.driver "down"))) sample sample
      (.driver "down")).2.2.2.2.1 7
      ⟨[scanOf ⟨1, 7, "registered", "a", "t1"⟩, fun dest => (dest, some (.driver "down"))], none⟩
      [scanOf ⟨1, 7, "registered", "a", "t1"⟩] [] (fun dest => (dest, some (.driver "down")))
      Parcel.zero rfl rfl (by simp [scanOf]) rfl,
    (error_propagation (NewParcelStore (brokenDB (.driver "down"))) sample sample
      (.driver "down")).2.2.2.2.2.1 1 "sent" rfl,
    (error_propagation (NewParcelStore (brokenDB (.driver "down"))) sample sample
      (.driver "down")).2.2.2.2.2.2.1 1 "x" rfl,
    (error_propagation (NewParcelStore (brokenDB (.driver "down"))) sample sample
      (.driver "down")).2.2.2.2.2.2.2 1 rfl⟩

/-- C9, the code at a failing input: the `SELECT` of `GetByClient 7` on the
sample table fails with a disk error after its first row has been stepped
(the error is the one `rows.Err()` holds); `GetByClient` returns that one
parcel and a nil error, where error propagation asks for the error and no
parcels. -/
theorem GetByClient_loses_iteration_error :
    (interruptedDB (.driver "disk I/O error")).Query ⟨[.clientEq 7]⟩ sample
      = (.ok ⟨[scanOf ⟨1, 7, "registered", "a", "t1"⟩], some (.driver "disk I/O error")⟩,
          sample) ∧
    (NewParcelStore (interruptedDB (.driver "disk I/O error"))).GetByClient 7 sample
      = (([⟨1, 7, "registered", "a", "t1"⟩], none), sample) ∧
    (NewParcelStore (interruptedDB (.driver "disk I/O error"))).GetByClient 7 sample
      ≠ (([], some (.driver "disk I/O error")), sample) :=
  ⟨rfl, by decide, by decide⟩

theorem status_fields (s : String) (n : Int) (p : Parcel) :
    (if p.Number == n then (Assign.status s).apply p else p).Client = p.Client ∧
    (if p.Number == n then (Assign.status s).apply p else p).CreatedAt = p.CreatedAt := by
  split <;> exact ⟨rfl, rfl⟩

theorem address_fields (a : String) (n : Int) (p : Parcel) :
    (if (p.Number == n && p.Status == "registered") then (Assign.address a).apply p
      else p).Client = p.Client ∧
    (if (p.Number == n && p.Status == "registered") then (Assign.address a).apply p
      else p).CreatedAt = p.CreatedAt := by
  split <;> exact ⟨rfl, rfl⟩

/-- The result of `Get` on a table whose rows went through a `SET` clause. -/
theorem Get_map (f : Parcel → Parcel) (hf : ∀ p, (f p).Number = p.Number) (m seq : Int)
    (t : Table) :
    (store.Get m ⟨t.rows.map f, seq⟩).1 =
      (match t.rows.find? (fun p => p.Number == m) with
        | none => (Parcel.zero, some Err.ErrNoRows)
        | some r => (f r, none)) := by
  rw [Get_eq]
  simp only []
  rw [find_map_of_number f hf]
  cases t.rows.find? (fun p => p.Number == m) <;> rfl

/-- C10. Immutable identity and frame, on a table with a primary key: `Add`
leaves every parcel that `Get` could read readable and equal; `SetStatus`,
`SetAddress` and `Delete` on number `n` leave the outcome of `Get m`
untouched for every `m ≠ n`; and a parcel read by `Get m` before and after any
of these three calls has the same number, client and createdAt. -/
theorem frame (t : Table) (hwf : t.WF) :
    (∀ (P : Parcel) (n : Int) (t1 : Table), store.Add P t = ((n, none), t1) →
      ∀ (m : Int) (p : Parcel), (store.Get m t).1 = (p, none) →
        (store.Get m t1).1 = (p, none)) ∧
    (∀ (n m : Int) (s : String), m ≠ n →
      (store.SetStatus n s t).1 = none ∧
      (store.Get m (store.SetStatus n s t).2).1 = (store.Get m t).1) ∧
    (∀ (n m : Int) (a : String), m ≠ n →
      (store.SetAddress n a t).1 = none ∧
      (store.Get m (store.SetAddress n a t).2).1 = (store.Get m t).1) ∧
    (∀ n m : Int, m ≠ n →
      (store.Delete n t).1 = none ∧
      (store.Get m (store.Delete n t).2).1 = (store.Get m t).1) ∧
    (∀ (n m : Int) (s : String) (p q : Parcel), (store.Get m t).1 = (p, none) →
      (store.Get m (store.SetStatus n s t).2).1 = (q, none) →
      q.Number = p.Number ∧ q.Client = p.Client ∧ q.CreatedAt = p.CreatedAt) ∧
    (∀ (n m : Int) (a : String) (p q : Parcel), (store.Get m t).1 = (p, none) →
      (store.Get m (store.SetAddress n a t).2).1 = (q, none) →
      q.Number = p.Number ∧ q.Client = p.Client ∧ q.CreatedAt = p.CreatedAt) ∧
    (∀ (n m : Int) (p q : Parcel), (store.Get m t).1 = (p, none) →
      (store.Get m (store.Delete n t).2).1 = (q, none) →
      q.Number = p.Number ∧ q.Client = p.Client ∧ q.CreatedAt = p.CreatedAt) := by
  refine ⟨?_, ?_, ?_, ?_, ?_, ?_, ?_⟩
  · intro P n t1 h m p hget
    obtain ⟨-, -, hfind⟩ := Get_ok_mem m t p hget
    obtain ⟨-, ht⟩ := Add_ok P t t1 n h
    rw [Get_eq, ht]
    simp [List.find?_append, hfind]
  · intro n m s hne
    refine ⟨by rw [SetStatus_eq], ?_⟩
    rw [SetStatus_eq]
    simp only []
    rw [Get_map _ (status_apply_number s n), Get_eq]
    cases hf : t.rows.find? (fun p => p.Number == m) with
    | none => rfl
    | some r =>
      have hr : r.Number = m := by simpa using List.find?_some hf
      have : ¬ r.Number = n := fun h => hne (hr ▸ h)
      simp [this]
  · intro n m a hne
    refine ⟨by rw [SetAddress_eq], ?_⟩
    rw [SetAddress_eq]
    simp only []
    rw [Get_map _ (address_apply_number a n), Get_eq]
    cases hf : t.rows.find? (fun p => p.Number == m) with
    | none => rfl
    | some r =>
      have hr : r.Number = m := by simpa using List.find?_some hf
      have : ¬ r.Number = n := fun h => hne (hr ▸ h)
      simp [this]
  · intro n m hne
    refine ⟨by rw [Delete_eq], ?_⟩
    rw [Delete_eq, Get_eq, Get_eq]
    simp only []
    rw [find_filter_other n m hne]
  · intro n m s p q hp hq
    obtain ⟨-, -, hfind⟩ := Get_ok_mem m t p hp
    rw [SetStatus_eq] at hq
    simp only [] at hq
    rw [Get_map _ (status_apply_number s n), hfind] at hq
    simp only [Prod.mk.injEq, and_true] at hq
    subst hq
    exact ⟨status_apply_number s n p, (status_fields s n p).1, (status_fields s n p).2⟩
  · intro n m a p q hp hq
    obtain ⟨-, -, hfind⟩ := Get_ok_mem m t p hp
    rw [SetAddress_eq] at hq
    simp only [] at hq
    rw [Get_map _ (address_apply_number a n), hfind] at hq
    simp only [Prod.mk.injEq, and_true] at hq
    subst hq
    exact ⟨address_apply_number a n p, (address_fields a n p).1, (address_fields a n p).2⟩
  · intro n m p q hp hq
    obtain ⟨hpm, hpn, -⟩ := Get_ok_mem m t p hp
    obtain ⟨hqm, hqn, -⟩ := Get_ok_mem m _ q hq
    rw [Delete_eq] at hqm
    simp only [] at hqm
    have hq2 : q ∈ t.rows := (List.mem_filter.1 hqm).1
    have := eq_of_number_eq t.rows hwf p q hpm hq2 (hpn.trans hqn.symm)
    subst this
    exact ⟨rfl, rfl, rfl⟩

theorem frame_witness :
    sample.WF ∧
    (store.Get 2 ⟨sample.rows ++ [⟨6, 9, "registered", "d", "t4"⟩], 6⟩).1
      = (⟨2, 8, "sent", "b", "t2"⟩, none) ∧
    (store.Get 2 (store.SetStatus 1 "sent" sample).2).1 = (store.Get 2 sample).1 ∧
    (store.Get 2 (store.SetAddress 1 "x" sample).2).1 = (store.Get 2 sample).1 ∧
    (store.Get 2 (store.Delete 1 sample).2).1 = (store.Get 2 sample).1 ∧
    (store.Get 1 sample).1 = (⟨1, 7, "registered", "a", "t1"⟩, none) ∧
    (store.Get 1 (store.SetStatus 1 "sent" sample).2).1 = (⟨1, 7, "sent", "a", "t1"⟩, none) ∧
    (store.Get 1 (store.SetAddress 1 "x" sample).2).1
      = (⟨1, 7, "registered", "x", "t1"⟩, none) ∧
    (store.Get 2 (store.Delete 2 sample).2).1 = (⟨2, 8, "sent", "b", "t2"⟩, none) ∧
    ((⟨1, 7, "sent", "a", "t1"⟩ : Parcel).Number = 1 ∧
      (⟨1, 7, "sent", "a", "t1"⟩ : Parcel).Client = 7 ∧
      (⟨1, 7, "sent", "a", "t1"⟩ : Parcel).CreatedAt = "t1") ∧
    ((⟨1, 7, "registered", "x", "t1"⟩ : Parcel).Number = 1 ∧
      (⟨1, 7, "registered", "x", "t1"⟩ : Parcel).Client = 7 ∧
      (⟨1, 7, "registered", "x", "t1"⟩ : Parcel).CreatedAt = "t1") ∧
    ((⟨2, 8, "sent", "b", "t2"⟩ : Parcel).Number = 2 ∧
      (⟨2, 8, "sent", "b", "t2"⟩ : Parcel).Client = 8 ∧
      (⟨2, 8, "sent", "b", "t2"⟩ : Parcel).CreatedAt = "t2") :=
  ⟨by decide,
    (frame sample (by decide)).1 ⟨0, 9, "registered", "d", "t4"⟩ 6 _ (by decide) 2
      ⟨2, 8, "sent", "b", "t2"⟩ (by decide),
    ((frame sample (by decide)).2.1 1 2 "sent" (by decide)).2,
    ((frame sample (by decide)).2.2.1 1 2 "x" (by decide)).2,
    ((frame sample (by decide)).2.2.2.1 1 2 (by decide)).2,
    by decide, by decide, by decide, by decide,
    (frame sample (by decide)).2.2.2.2.1 1 1 "sent" ⟨1, 7, "registered", "a", "t1"⟩
      ⟨1, 7, "sent", "a", "t1"⟩ (by decide) (by decide),
    (frame sample (by decide)).2.2.2.2.2.1 1 1 "x" ⟨1, 7, "registered", "a", "t1"⟩
      ⟨1, 7, "registered", "x", "t1"⟩ (by decide) (by decide),
    (frame sample (by decide)).2.2.2.2.2.2 2 2 ⟨2, 8, "sent", "b", "t2"⟩
      ⟨2, 8, "sent", "b", "t2"⟩ (by decide) (by decide)⟩

end ParcelDB
